import Mathlib

/-!
Verification of the daily scanner pipeline in `scan.py`:
search → deduplicate → format → analyze → render report → persist.

Raw GitHub records are modelled as records of optional fields (a JSON object
in which any relevant field may be absent); `dict.get(key, default)` becomes
`Option.getD`.  The two external services (the GitHub search HTTP call and
the Claude completion call) are passed in as function parameters returning
`Except`, so that transport/HTTP/parse failures and service failures are
explicit values; the clock and the environment variables are parameters as
well; the filesystem is a map from path to contents.
-/

/-- Raw repository record as returned by the GitHub search API: an object
whose relevant fields may each be absent. -/
structure RawRepo where
  full_name : Option String
  description : Option String
  html_url : Option String
  stargazers_count : Option Nat
  language : Option String
  created_at : Option String
  topics : Option (List String)
deriving DecidableEq, Repr

/-- The fixed list of search queries (`SEARCH_QUERIES` in `scan.py`). -/
def SEARCH_QUERIES : List String :=
  ["gaussian splatting", "3dgs", "gsplat viewer", "splat viewer",
   "3d gaussian splat", "gaussian splat viewer"]

/-- `get_github_headers`: raises `ValueError` when `GITHUB_TOKEN` is unset or
empty (Python falsiness), otherwise returns the header list. -/
def get_github_headers (github_token : Option String) :
    Except String (List (String × String)) :=
  if github_token.getD "" = "" then
    Except.error "GITHUB_TOKEN environment variable is required"
  else
    Except.ok [("Authorization", "token " ++ github_token.getD ""),
               ("Accept", "application/vnd.github.v3+json")]

/-- Query parameters of one GitHub search request (`params` in
`search_github_repos`). -/
structure SearchParams where
  q : String
  sort : String
  order : String
  per_page : Nat
deriving DecidableEq, Repr

/-- Outcome of `search_github_repos`: the returned value (`Except.error` for a
raised `ValueError`) together with the list of HTTP requests issued. -/
structure SearchOutcome where
  result : Except String (List RawRepo)
  requests : List SearchParams
deriving Repr

/-- `search_github_repos`, with the HTTP layer as a parameter: `httpGet`
returns `Except.error` on any transport, HTTP-status or JSON-decode failure
(all are `requests.exceptions.RequestException`), and otherwise the `items`
field of the decoded JSON body (`none` when the key is absent, so that
`data.get("items", [])` becomes `Option.getD`). -/
def search_github_repos (github_token : Option String)
    (httpGet : SearchParams → Except String (Option (List RawRepo)))
    (query : String) (created_after : String) : SearchOutcome :=
  match get_github_headers github_token with
  | Except.error e => { result := Except.error e, requests := [] }
  | Except.ok _headers =>
    let search_query := query ++ (" created:>" ++ (created_after ++ " fork:false"))
    let params : SearchParams :=
      { q := search_query, sort := "created", order := "desc", per_page := 100 }
    match httpGet params with
    | Except.error _e => { result := Except.ok [], requests := [params] }
    | Except.ok data_items => { result := Except.ok (data_items.getD []), requests := [params] }

/-- Worker of `deduplicate_repos`: the loop over `repos` with the `seen` set
(membership is all the set is used for, so it is a list of keys). -/
def dedupGo (seen : List String) : List RawRepo → List RawRepo
  | [] => []
  | repo :: rest =>
    let full_name := repo.full_name.getD ""
    if full_name ≠ "" ∧ full_name ∉ seen then
      repo :: dedupGo (full_name :: seen) rest
    else
      dedupGo seen rest

/-- `deduplicate_repos`: remove duplicate repos based on `full_name`. -/
def deduplicate_repos (repos : List RawRepo) : List RawRepo :=
  dedupGo [] repos

/-- The deduplication key: `repo.get("full_name", "")`. -/
def repoKey (repo : RawRepo) : String :=
  repo.full_name.getD ""

/-- Spec-side worker: `earlier` is the list of all records strictly before
the current position, in order; a record is kept exactly when its full-name
identifier is non-empty and has not appeared among the identifiers of the
earlier records. -/
def specFOGo (earlier : List RawRepo) : List RawRepo → List RawRepo
  | [] => []
  | r :: rest =>
    if repoKey r ≠ "" ∧ repoKey r ∉ earlier.map repoKey then
      r :: specFOGo (earlier ++ [r]) rest
    else
      specFOGo (earlier ++ [r]) rest

/-- Stated from the spec words, for comparison with `deduplicate_repos`:
the subsequence of the input keeping each record exactly when its full-name
identifier is non-empty and did not appear earlier in the list, so that for
each identifier only its first occurrence remains, in input order. -/
def specFirstOccurrences (repos : List RawRepo) : List RawRepo :=
  specFOGo [] repos

/-- Normalized repository record (`format_repo_for_analysis` output). -/
structure FormattedRepo where
  name : String
  description : String
  url : String
  stars : Nat
  language : String
  created_at : String
  topics : List String
deriving DecidableEq, Repr

/-- `format_repo_for_analysis`: extract relevant fields from a repo for
analysis, defaulting each field via `dict.get`. -/
def format_repo_for_analysis (repo : RawRepo) : FormattedRepo :=
  { name := repo.full_name.getD "Unknown",
    description := repo.description.getD "No description",
    url := repo.html_url.getD "",
    stars := repo.stargazers_count.getD 0,
    language := repo.language.getD "Unknown",
    created_at := repo.created_at.getD "",
    topics := repo.topics.getD [] }

/-- One entry of the `repo_list` block interpolated into the prompt of
`analyze_with_claude`. -/
def repoEntry (r : FormattedRepo) : String :=
  "- **" ++ r.name ++ "** (" ++ r.language ++ ", " ++ toString r.stars ++
  " stars)\n  Description: " ++ r.description ++
  "\n  URL: " ++ r.url ++
  "\n  Topics: " ++
  (if r.topics = [] then "None" else String.intercalate ", " r.topics)

/-- The full prompt string built by `analyze_with_claude` for a non-empty
repo list. -/
def buildPrompt (repos : List FormattedRepo) : String :=
  let repo_list := String.intercalate "\n" (repos.map repoEntry)
  "Here are GitHub repos found in the last 24 hours related to 3D Gaussian Splatting:\n\n"
  ++ repo_list ++
  "\n\nWhich of these appear to be INTERACTIVE VIEWERS or creative presentation tools (web-based, with UI, playable experiences)?\n\nExclude:\n- Training/research code (CUDA kernels, model training scripts)\n- Raw data/datasets\n- Python-only tools with no viewer component\n- Forks of existing projects (should already be filtered out)\n- Academic paper implementations without viewer\n- Purely backend/API projects\n\nFor each interesting viewer project, provide:\n1. The repo name and URL\n2. What makes it interesting (unique features, novel approach, etc.)\n3. Technology stack if discernible\n\nIf none of the repos appear to be interactive viewers, say so clearly.\n\nFormat your response as markdown suitable for a daily report."

/-- Outcome of `analyze_with_claude`: the returned value (`Except.error` for
a raised `ValueError`) and whether the Claude API was called. -/
structure AnalyzeOutcome where
  result : Except String String
  serviceCalled : Bool
deriving Repr

/-- `analyze_with_claude`, with the Claude API as a parameter: `service`
maps the prompt to the completion text, or to `Except.error` on any failure
of the call (including a missing content block). -/
def analyze_with_claude (anthropic_api_key : Option String)
    (service : String → Except String String)
    (repos : List FormattedRepo) : AnalyzeOutcome :=
  if anthropic_api_key.getD "" = "" then
    { result := Except.error "ANTHROPIC_API_KEY environment variable is required",
      serviceCalled := false }
  else if repos = [] then
    { result := Except.ok "No new repositories found in the last 24 hours.",
      serviceCalled := false }
  else
    match service (buildPrompt repos) with
    | Except.ok text =>
      { result := Except.ok text, serviceCalled := true }
    | Except.error e =>
      { result := Except.ok ("Error analyzing with Claude: " ++ e), serviceCalled := true }

/-- The per-repository subsection appended by `generate_daily_report` for
each record. -/
def repoSection (repo : FormattedRepo) : String :=
  "### [" ++ repo.name ++ "](" ++ repo.url ++
  ")\n\n- **Language**: " ++ repo.language ++
  "\n- **Stars**: " ++ toString repo.stars ++
  "\n- **Created**: " ++
  (if repo.created_at = "" then "Unknown" else repo.created_at.take 10) ++
  "\n- **Topics**: " ++
  (if repo.topics = [] then "None" else String.intercalate ", " repo.topics) ++
  "\n- **Description**: " ++ repo.description ++ "\n\n"

/-- The value of `report` in `generate_daily_report` just before the final
`report += footer`: title and summary block, the analysis verbatim, then the
per-record subsections (or the fallback sentence when there are none). -/
def reportBody (repos : List FormattedRepo) (analysis : String)
    (date_str : String) : String :=
  "# 3DGS Viewer Monitor - " ++ (date_str ++
  ("\n\n## Summary\n\n- **Repos scanned**: " ++ (toString repos.length ++
  ("\n- **Search queries**: " ++ (String.intercalate ", " SEARCH_QUERIES ++
  ("\n- **Time range**: Last 24 hours\n\n## Claude's Analysis\n\n" ++ (analysis ++
  ("\n\n## All Repos Found\n\n" ++
  (if repos = [] then "*No new repos found in the last 24 hours.*\n"
   else String.join (repos.map repoSection))))))))))

/-- `generate_daily_report`, with the generation instant (`datetime.utcnow()
.isoformat()`) passed in as `generated_at`. -/
def generate_daily_report (repos : List FormattedRepo) (analysis : String)
    (date_str : String) (generated_at : String) : String :=
  reportBody repos analysis date_str ++
  ("\n---\n*Generated at " ++ (generated_at ++ "Z by 3DGS Viewer Monitor*\n"))

/-- A filesystem state: path to file contents (`none` = no such file). -/
def FileStore : Type := String → Option String

/-- Writing one file: `Path.write_text`, which truncates and overwrites. -/
def writeFile (fs : FileStore) (path : String) (contents : String) : FileStore :=
  fun p => if p = path then some contents else fs p

/-- `save_report`: ensures the findings directory exists (no observable
effect on the file map), writes the report to `<findings_dir>/<date_str>.md`
and returns that path. -/
def save_report (report : String) (date_str : String) (findings_dir : String)
    (fs : FileStore) : FileStore × String :=
  let filepath := findings_dir ++ ("/" ++ (date_str ++ ".md"))
  (writeFile fs filepath report, filepath)

/-- The persistence phase of `main`: saves the dated report under
`<script_dir>/findings` via `save_report`, then writes the same report to
`<script_dir>/latest_report.md`, and keeps `save_report`'s returned path. -/
def mainPersist (report : String) (date_str : String) (script_dir : String)
    (fs : FileStore) : FileStore × String :=
  let findings_dir := script_dir ++ "/findings"
  let saved := save_report report date_str findings_dir fs
  let issue_file := script_dir ++ "/latest_report.md"
  (writeFile saved.1 issue_file report, saved.2)

lemma dedupGo_cons (seen : List String) (repo : RawRepo) (rest : List RawRepo) :
    dedupGo seen (repo :: rest) =
      if repoKey repo ≠ "" ∧ repoKey repo ∉ seen then
        repo :: dedupGo (repoKey repo :: seen) rest
      else
        dedupGo seen rest := rfl

lemma specFOGo_cons (earlier : List RawRepo) (repo : RawRepo) (rest : List RawRepo) :
    specFOGo earlier (repo :: rest) =
      if repoKey repo ≠ "" ∧ repoKey repo ∉ earlier.map repoKey then
        repo :: specFOGo (earlier ++ [repo]) rest
      else
        specFOGo (earlier ++ [repo]) rest := rfl

lemma dedupGo_sublist (l : List RawRepo) : ∀ seen : List String,
    List.Sublist (dedupGo seen l) l := by
  induction l with
  | nil => intro seen; exact List.Sublist.refl _
  | cons repo rest ih =>
    intro seen
    rw [dedupGo_cons]
    by_cases h : repoKey repo ≠ "" ∧ repoKey repo ∉ seen
    · rw [if_pos h]; exact (ih _).cons₂ repo
    · rw [if_neg h]; exact (ih seen).cons repo

lemma dedupGo_mem (l : List RawRepo) : ∀ (seen : List String) (r : RawRepo),
    r ∈ dedupGo seen l → repoKey r ≠ "" ∧ repoKey r ∉ seen := by
  induction l with
  | nil => intro seen r h; simp [dedupGo] at h
  | cons repo rest ih =>
    intro seen r h
    rw [dedupGo_cons] at h
    by_cases hc : repoKey repo ≠ "" ∧ repoKey repo ∉ seen
    · rw [if_pos hc] at h
      rcases List.mem_cons.mp h with heq | htail
      · exact heq ▸ hc
      · have hr := ih _ r htail
        exact ⟨hr.1, fun hs => hr.2 (List.mem_cons_of_mem _ hs)⟩
    · rw [if_neg hc] at h
      exact ih seen r h

lemma dedupGo_pairwise (l : List RawRepo) : ∀ seen : List String,
    List.Pairwise (fun a b => repoKey a ≠ repoKey b) (dedupGo seen l) := by
  induction l with
  | nil => intro seen; simp [dedupGo]
  | cons repo rest ih =>
    intro seen
    rw [dedupGo_cons]
    by_cases hc : repoKey repo ≠ "" ∧ repoKey repo ∉ seen
    · rw [if_pos hc]
      refine List.Pairwise.cons ?_ (ih _)
      intro b hb heq
      have hbmem := dedupGo_mem rest _ b hb
      exact hbmem.2 (by rw [← heq]; exact List.mem_cons_self _ _)
    · rw [if_neg hc]; exact ih seen

lemma dedupGo_fixed (l : List RawRepo) : ∀ seen : List String,
    (∀ r ∈ l, repoKey r ≠ "" ∧ repoKey r ∉ seen) →
    List.Pairwise (fun a b => repoKey a ≠ repoKey b) l →
    dedupGo seen l = l := by
  induction l with
  | nil => intro seen _ _; rfl
  | cons repo rest ih =>
    intro seen hall hpw
    rw [dedupGo_cons, if_pos (hall repo (List.mem_cons_self _ _))]
    congr 1
    refine ih _ ?_ hpw.of_cons
    intro r hr
    refine ⟨(hall r (List.mem_cons_of_mem _ hr)).1, ?_⟩
    intro hs
    rcases List.mem_cons.mp hs with heq | hseen
    · exact List.rel_of_pairwise_cons hpw hr heq.symm
    · exact (hall r (List.mem_cons_of_mem _ hr)).2 hseen

lemma dedupGo_eq_specFOGo (l : List RawRepo) :
    ∀ (seen : List String) (earlier : List RawRepo),
    (∀ k : String, k ≠ "" → (k ∈ seen ↔ k ∈ earlier.map repoKey)) →
    dedupGo seen l = specFOGo earlier l := by
  induction l with
  | nil => intro seen earlier _; rfl
  | cons repo rest ih =>
    intro seen earlier hinv
    rw [dedupGo_cons, specFOGo_cons]
    by_cases hk : repoKey repo = ""
    · rw [if_neg (by simp [hk]), if_neg (by simp [hk])]
      refine ih seen (earlier ++ [repo]) ?_
      intro k hk'
      rw [hinv k hk', List.map_append]
      constructor
      · intro hm; exact List.mem_append_left _ hm
      · intro hm
        rcases List.mem_append.mp hm with hm | hm
        · exact hm
        · simp [hk] at hm
          exact absurd hm hk'
    · by_cases hs : repoKey repo ∈ seen
      · have hpre : repoKey repo ∈ earlier.map repoKey := (hinv _ hk).mp hs
        rw [if_neg (fun hc => hc.2 hs), if_neg (fun hc => hc.2 hpre)]
        refine ih seen (earlier ++ [repo]) ?_
        intro k hk'
        rw [hinv k hk', List.map_append]
        constructor
        · intro hm; exact List.mem_append_left _ hm
        · intro hm
          rcases List.mem_append.mp hm with hm | hm
          · exact hm
          · simp at hm
            exact hm ▸ hpre
      · have hpre : repoKey repo ∉ earlier.map repoKey :=
          fun hm => hs ((hinv _ hk).mpr hm)
        rw [if_pos ⟨hk, hs⟩, if_pos ⟨hk, hpre⟩]
        congr 1
        refine ih (repoKey repo :: seen) (earlier ++ [repo]) ?_
        intro k hk'
        rw [List.map_append]
        constructor
        · intro hm
          rcases List.mem_cons.mp hm with heq | hm
          · exact heq ▸ List.mem_append_right _ (by simp)
          · exact List.mem_append_left _ ((hinv k hk').mp hm)
        · intro hm
          rcases List.mem_append.mp hm with hm | hm
          · exact List.mem_cons_of_mem _ ((hinv k hk').mpr hm)
          · simp at hm
            exact hm ▸ List.mem_cons_self _ _

/-- A raw record with the given full name and no other fields, used for
concrete instances. -/
def rawNamed (fullName : Option String) : RawRepo :=
  { full_name := fullName, description := none, html_url := none,
    stargazers_count := none, language := none, created_at := none, topics := none }

/-- C1: for every input list, `deduplicate_repos` returns the subsequence
keeping, for each full-name identifier, only its first occurrence, in input
order, and dropping every record whose full-name identifier is missing or
empty — i.e. it agrees with the spec-side `specFirstOccurrences`.  In
particular identifiers `[A, B, A, C, B]` yield `[A, B, C]`. -/
theorem deduplicate_repos_first_occurrences (repos : List RawRepo) :
    deduplicate_repos repos = specFirstOccurrences repos ∧
    (deduplicate_repos
        [rawNamed (some "A"), rawNamed (some "B"), rawNamed (some "A"),
         rawNamed (some "C"), rawNamed (some "B")]).map repoKey = ["A", "B", "C"] :=
  ⟨dedupGo_eq_specFOGo repos [] [] (by intro k _; simp), by decide⟩

/-- C2 counterexample: a raw record whose `description` field is present but
equal to the empty string keeps the empty string after normalization — the
placeholder is not substituted for present-but-empty fields, refuting the
claim that a default is substituted "whenever a source field is absent or
empty". -/
theorem format_repo_empty_description_kept :
    (format_repo_for_analysis
      { full_name := some "owner/repo", description := some "",
        html_url := some "https://github.com/owner/repo",
        stargazers_count := some 1, language := some "Python",
        created_at := some "2025-01-01T00:00:00Z",
        topics := some [] }).description ≠ "No description" := by
  decide

/-- C2 (amended): `format_repo_for_analysis` is total, and a documented
default is substituted exactly when the source field is absent — name and
language default to the placeholder, description to the fixed placeholder
text, url and created_at to the empty string, stars to 0 and topics to the
empty sequence — while every field that is present (even when empty) is
passed through unchanged; hence every field of the normalized record is
present and of its known type. -/
theorem format_repo_defaults_on_absent (repo : RawRepo) :
    (repo.full_name = none → (format_repo_for_analysis repo).name = "Unknown") ∧
    (repo.description = none →
      (format_repo_for_analysis repo).description = "No description") ∧
    (repo.html_url = none → (format_repo_for_analysis repo).url = "") ∧
    (repo.stargazers_count = none → (format_repo_for_analysis repo).stars = 0) ∧
    (repo.language = none → (format_repo_for_analysis repo).language = "Unknown") ∧
    (repo.created_at = none → (format_repo_for_analysis repo).created_at = "") ∧
    (repo.topics = none → (format_repo_for_analysis repo).topics = []) ∧
    (∀ v, repo.full_name = some v → (format_repo_for_analysis repo).name = v) ∧
    (∀ v, repo.description = some v →
      (format_repo_for_analysis repo).description = v) ∧
    (∀ v, repo.html_url = some v → (format_repo_for_analysis repo).url = v) ∧
    (∀ v, repo.stargazers_count = some v →
      (format_repo_for_analysis repo).stars = v) ∧
    (∀ v, repo.language = some v → (format_repo_for_analysis repo).language = v) ∧
    (∀ v, repo.created_at = some v →
      (format_repo_for_analysis repo).created_at = v) ∧
    (∀ v, repo.topics = some v → (format_repo_for_analysis repo).topics = v) := by
  refine ⟨fun h => ?_, fun h => ?_, fun h => ?_, fun h => ?_, fun h => ?_,
    fun h => ?_, fun h => ?_, fun v h => ?_, fun v h => ?_, fun v h => ?_,
    fun v h => ?_, fun v h => ?_, fun v h => ?_, fun v h => ?_⟩ <;>
  simp [format_repo_for_analysis, h]

/-- C2 witness: the amended theorem applied at the record with every field
absent yields the documented description default. -/
theorem format_repo_defaults_on_absent_witness :
    (format_repo_for_analysis (rawNamed none)).description = "No description" :=
  (format_repo_defaults_on_absent (rawNamed none)).2.1 rfl

/-- C10: `deduplicate_repos` is idempotent, and its output is always a
subsequence of its input. -/
theorem deduplicate_repos_idempotent (repos : List RawRepo) :
    deduplicate_repos (deduplicate_repos repos) = deduplicate_repos repos ∧
    List.Sublist (deduplicate_repos repos) repos := by
  constructor
  · refine dedupGo_fixed _ [] ?_ (dedupGo_pairwise repos [])
    intro r hr
    exact ⟨(dedupGo_mem repos [] r hr).1, List.not_mem_nil _⟩
  · exact dedupGo_sublist repos []

/-- C3: with the analyzer credential present, `analyze_with_claude` applied
to the empty normalized-record list returns exactly the literal
no-repositories message, and the generative-text service is not called. -/
theorem analyze_with_claude_empty_short_circuit (key : String) (hk : key ≠ "")
    (service : String → Except String String) :
    analyze_with_claude (some key) service [] =
      { result := Except.ok "No new repositories found in the last 24 hours.",
        serviceCalled := false } := by
  simp [analyze_with_claude, hk]

/-- C3 witness: the short-circuit at a concrete credential and service. -/
theorem analyze_with_claude_empty_short_circuit_witness :
    analyze_with_claude (some "sk-ant-test") (fun _ => Except.ok "unused") [] =
      { result := Except.ok "No new repositories found in the last 24 hours.",
        serviceCalled := false } :=
  analyze_with_claude_empty_short_circuit "sk-ant-test" (by decide) _

/-- C9: the credential check of `analyze_with_claude` precedes the
empty-list short-circuit: for every input list — the empty list included —
a missing credential raises the configuration `ValueError`, and the service
is not called. -/
theorem analyze_with_claude_missing_key_raises
    (service : String → Except String String) (repos : List FormattedRepo) :
    analyze_with_claude none service repos =
      { result := Except.error "ANTHROPIC_API_KEY environment variable is required",
        serviceCalled := false } := rfl

/-- C5: with the credential present and a non-empty record list, any failure
of the service call makes `analyze_with_claude` return the error-message
string embedding the failure reason, instead of propagating an exception. -/
theorem analyze_with_claude_service_failure (key : String) (hk : key ≠ "")
    (repos : List FormattedRepo) (hr : repos ≠ [])
    (service : String → Except String String) (e : String)
    (hs : service (buildPrompt repos) = Except.error e) :
    analyze_with_claude (some key) service repos =
      { result := Except.ok ("Error analyzing with Claude: " ++ e),
        serviceCalled := true } := by
  simp [analyze_with_claude, hk, hr, hs]

/-- C5 witness: a concrete failing service call is reported in-band. -/
theorem analyze_with_claude_service_failure_witness :
    analyze_with_claude (some "sk-ant-test") (fun _ => Except.error "boom")
        [format_repo_for_analysis (rawNamed (some "a/x"))] =
      { result := Except.ok ("Error analyzing with Claude: " ++ "boom"),
        serviceCalled := true } :=
  analyze_with_claude_service_failure "sk-ant-test" (by decide) _ (by decide)
    _ "boom" rfl

/-- C4: with the search credential present, whenever the HTTP request fails
for any transport, HTTP-status or malformed-response reason,
`search_github_repos` returns the empty list normally — no exception
propagates to the caller. -/
theorem search_github_repos_failure_empty (token : String) (ht : token ≠ "")
    (query created_after e : String) :
    (search_github_repos (some token) (fun _ => Except.error e)
        query created_after).result = Except.ok [] := by
  simp [search_github_repos, get_github_headers, ht]

/-- C4 witness: a concrete failing request yields the empty list. -/
theorem search_github_repos_failure_empty_witness :
    (search_github_repos (some "ghp-test") (fun _ => Except.error "timeout")
        "gaussian splatting" "2025-01-01").result = Except.ok [] :=
  search_github_repos_failure_empty "ghp-test" (by decide)
    "gaussian splatting" "2025-01-01" "timeout"

/-- C6: with the search credential present, `search_github_repos` issues
exactly one request, whose free-text query is the given query augmented with
the creation-date lower-bound clause and the non-fork clause, with
sort=created, order=desc and page size 100. -/
theorem search_github_repos_request_shape (token : String) (ht : token ≠ "")
    (httpGet : SearchParams → Except String (Option (List RawRepo)))
    (query created_after : String) :
    (search_github_repos (some token) httpGet query created_after).requests =
      [{ q := query ++ " created:>" ++ created_after ++ " fork:false",
         sort := "created", order := "desc", per_page := 100 }] := by
  rcases hcall : httpGet ⟨query ++ (" created:>" ++ (created_after ++ " fork:false")),
      "created", "desc", 100⟩ with e | items <;>
    simp [search_github_repos, get_github_headers, ht, hcall, String.append_assoc]

/-- C6 witness: the single request at concrete inputs. -/
theorem search_github_repos_request_shape_witness :
    (search_github_repos (some "ghp-test") (fun _ => Except.ok none)
        "3dgs" "2025-01-01").requests =
      [{ q := "3dgs created:>2025-01-01 fork:false",
         sort := "created", order := "desc", per_page := 100 }] :=
  search_github_repos_request_shape "ghp-test" (by decide) _ "3dgs" "2025-01-01"

/-- C7: for a fixed record list, analysis text and date label, the rendered
report is a fixed prefix followed by the trailing generation-timestamp line,
so two invocations differ at most in that line; and with zero records the
listing section is exactly the literal fallback sentence, with no
per-record subsections. -/
theorem generate_daily_report_deterministic_empty_state :
    (∀ (repos : List FormattedRepo) (analysis date_str : String),
      ∃ p : String, ∀ generated_at : String,
        generate_daily_report repos analysis date_str generated_at =
          p ++ ("\n---\n*Generated at " ++
            (generated_at ++ "Z by 3DGS Viewer Monitor*\n"))) ∧
    (∀ analysis date_str generated_at : String,
      generate_daily_report [] analysis date_str generated_at =
        ("# 3DGS Viewer Monitor - " ++ (date_str ++
         ("\n\n## Summary\n\n- **Repos scanned**: 0\n- **Search queries**: gaussian splatting, 3dgs, gsplat viewer, splat viewer, 3d gaussian splat, gaussian splat viewer\n- **Time range**: Last 24 hours\n\n## Claude's Analysis\n\n" ++
         (analysis ++ "\n\n## All Repos Found\n\n*No new repos found in the last 24 hours.*\n")))) ++
        ("\n---\n*Generated at " ++
         (generated_at ++ "Z by 3DGS Viewer Monitor*\n"))) := by
  constructor
  · intro repos analysis date_str
    exact ⟨reportBody repos analysis date_str, fun _ => rfl⟩
  · intro analysis date_str generated_at
    rfl

/-- C8: the persistence phase writes the report to
`<script_dir>/findings/<date_str>.md` — overwriting whatever the file map
held there — returns exactly that path, and the fixed-name latest file
receives content identical to the dated file. -/
theorem mainPersist_dated_and_latest (report date_str script_dir : String)
    (fs : FileStore) :
    (mainPersist report date_str script_dir fs).2 =
      script_dir ++ "/findings/" ++ date_str ++ ".md" ∧
    (mainPersist report date_str script_dir fs).1
      ((mainPersist report date_str script_dir fs).2) = some report ∧
    (mainPersist report date_str script_dir fs).1
      (script_dir ++ "/latest_report.md") = some report := by
  refine ⟨?_, ?_, ?_⟩
  · simp only [mainPersist, save_report, String.append_assoc]
    rfl
  · simp only [mainPersist, save_report, writeFile]
    by_cases h : (script_dir ++ "/findings") ++ ("/" ++ (date_str ++ ".md")) =
        script_dir ++ "/latest_report.md"
    · simp [h]
    · simp [h]
  · simp only [mainPersist, save_report, writeFile]
    simp
